import Mathlib

/-!
Verification development for the `x/evm` CLI module (query commands in
`x/evm/client/cli/query.go`, transaction commands in the tx command file).

The two pipelines are embedded shallowly:
- the Query Pipeline (`GetStorageCmd`, `GetCodeCmd`, `GetParamsCmd`,
  `QueryMappedEvmAddressCmd`);
- the Transaction Bridge Pipeline (`NewRawTxCmd`) and the mapping
  commands (`getCmdSetMappingEvmAddress`, `getCmdDeleteMappingEvmAddress`).

External collaborators (the RPC query service, the transaction envelope
codec, terminal confirmation, broadcasting) are modelled as oracle values
carried in an environment record; each `RunE` body becomes a pure function
from that environment to a returned `Option Err` (the Go `error` result,
`none` meaning a nil error and hence exit code 0) together with an ordered
trace of observable events (RPC calls, envelope construction, prints to
the standard and diagnostic streams, broadcast attempts).
-/

namespace EvmCli

/-- Error taxonomy of the spec (§7).  Errors are propagated verbatim, so a
single constructor per kind suffices; oracle-supplied failures reuse these
constructors and propagation is stated as equality of the returned error
with the oracle's error. -/
inductive Err where
  | hexDecodeError : Err
  | deserializationError : Err
  | validationError : Err
  | invalidAddress : Err
  | ctxError : Err
  | remoteQueryError : Err
  | buildError : Err
  | encodeError : Err
  | confirmReadError : Err
  | broadcastError : Err
deriving DecidableEq, Repr

/-- Value of a single hex digit character (`0-9`, `a-f`, `A-F`), `none`
when the character is not a hex digit. -/
def hexVal (c : Char) : Option Nat :=
  if 48 ≤ c.toNat ∧ c.toNat ≤ 57 then some (c.toNat - 48)
  else if 97 ≤ c.toNat ∧ c.toNat ≤ 102 then some (c.toNat - 97 + 10)
  else if 65 ≤ c.toNat ∧ c.toNat ≤ 70 then some (c.toNat - 65 + 10)
  else none

/-- Decode a list of hex digit characters two at a time into bytes;
fails on an odd-length list or any non-hex character. -/
def hexPairs : List Char → Option (List Nat)
  | [] => some []
  | [_] => none
  | c1 :: c2 :: rest =>
    match hexVal c1, hexVal c2, hexPairs rest with
    | some h, some l, some bs => some ((h * 16 + l) :: bs)
    | _, _, _ => none

/-- Lower-case hex digit character for a value below 16. -/
def hexDigitChar (n : Nat) : Char :=
  if n < 10 then Char.ofNat ('0'.toNat + n) else Char.ofNat ('a'.toNat + n - 10)

/-- Lower-case hex character encoding of a byte list, two characters per
byte. -/
def bytesToHexChars : List Nat → List Char
  | [] => []
  | b :: rest => hexDigitChar (b / 16) :: hexDigitChar (b % 16) :: bytesToHexChars rest

/-- Modelled from the spec: the Raw Decoder's hex decoding step
(`hexutil.Decode` of go-ethereum, whose implementation is not under
`src/`).  The input must carry a `0x`/`0X` marker and then an even number
of hex digits; any other input fails with `HexDecodeError`. -/
def hexutilDecode (s : String) : Except Err (List Nat) :=
  if s.toList.take 2 = ['0', 'x'] ∨ s.toList.take 2 = ['0', 'X'] then
    match hexPairs (s.toList.drop 2) with
    | some bs => Except.ok bs
    | none => Except.error Err.hexDecodeError
  else Except.error Err.hexDecodeError

/-- The parsed foreign (Ethereum) transaction.  The fields relevant to the
bridge invariants are the opaque transaction payload and the signature
bytes; both are carried verbatim through the envelope. -/
structure MsgEthereumTx where
  payload : List Nat
  signature : List Nat
deriving DecidableEq, Repr

/-- Modelled from the spec: the foreign transaction's binary encoding
(`MsgEthereumTx.UnmarshalBinary`'s inverse; the codec implementation is
not under `src/`).  A simple length-prefixed layout stands for the
structured wire encoding: payload length, payload bytes, signature
length, signature bytes. -/
def marshalBinary (m : MsgEthereumTx) : List Nat :=
  m.payload.length :: (m.payload ++ m.signature.length :: m.signature)

/-- Modelled from the spec: the foreign transaction's binary decoder
(`MsgEthereumTx.UnmarshalBinary`, not under `src/`).  Fails with
`DeserializationError` on truncated data, a wrong length field, or
trailing garbage. -/
def unmarshalBinary (bs : List Nat) : Except Err MsgEthereumTx :=
  match bs with
  | [] => Except.error Err.deserializationError
  | n :: rest =>
    if n ≤ rest.length then
      match rest.drop n with
      | [] => Except.error Err.deserializationError
      | m :: rest2 =>
        if m = rest2.length then Except.ok ⟨rest.take n, rest2⟩
        else Except.error Err.deserializationError
    else Except.error Err.deserializationError

/-- Modelled from the spec: the foreign transaction's basic structural
validation (`MsgEthereumTx.ValidateBasic`, not under `src/`): a purely
local check that fails with `ValidationError` on an empty signature. -/
def validateBasic (m : MsgEthereumTx) : Except Err Unit :=
  if m.signature = [] then Except.error Err.validationError else Except.ok ()

/-- The host-native transaction envelope: exactly one wrapped foreign
transaction message plus the fee denomination obtained from the module
parameters. -/
structure HostEnvelope where
  msg : MsgEthereumTx
  feeDenom : String
deriving DecidableEq, Repr

/-- Modelled from the spec: `msg.BuildTx` wraps the validated foreign
transaction as the single message of the envelope, with the fee
denominated in the queried module token. -/
def buildTx (m : MsgEthereumTx) (denom : String) : HostEnvelope :=
  ⟨m, denom⟩

/-- Re-extract the single wrapped foreign transaction from the envelope. -/
def extractMsg (e : HostEnvelope) : MsgEthereumTx :=
  e.msg

/-- Flags of the client transaction context that `NewRawTxCmd` consults:
`GenerateOnly` (the `--generate-only` flag) and `SkipConfirm` (the
`--yes` flag). -/
structure ClientCtx where
  generateOnly : Bool
  skipConfirm : Bool
deriving DecidableEq, Repr

/-- Oracle environment for one run of `NewRawTxCmd`'s `RunE` body: the
single command argument plus the values the external collaborators would
return at each call site, in source order: `GetClientTxContext`, the
`Params` query of the query service, `msg.BuildTx` (only its possible
failure; the successful envelope is computed by `buildTx`), the
`TxJSONEncoder` applied to the built envelope, `input.GetConfirmation`,
the binary `TxEncoder`, and `BroadcastTx`. -/
structure RawTxEnv where
  arg : String
  ctx : Except Err ClientCtx
  paramsResp : Except Err String
  buildErr : Option Err
  jsonOut : Except Err String
  confirm : Except Err Bool
  txBytes : Except Err (List Nat)
  broadcastRes : Except Err String
deriving Repr

/-- Observable events of one `NewRawTxCmd` run, recorded in execution
order: the `Params` RPC round trip (the only query RPC in this pipeline),
envelope construction, a print to standard output, a print to the
diagnostic (stderr) stream, and a broadcast attempt. -/
inductive Event where
  | rpcParams : Event
  | envelopeBuilt : HostEnvelope → Event
  | printStd : String → Event
  | printDiag : String → Event
  | broadcastEv : Event
deriving DecidableEq, Repr

/-- Tail of `NewRawTxCmd`'s `RunE`: encode the confirmed envelope with the
binary `TxEncoder`, broadcast it, and print the acknowledgment. -/
def rawTxBroadcast (env : RawTxEnv) (tr : List Event) : Option Err × List Event :=
  match env.txBytes with
  | Except.error e => (some e, tr)
  | Except.ok _ =>
    match env.broadcastRes with
    | Except.error e => (some e, tr ++ [Event.broadcastEv])
    | Except.ok res => (none, tr ++ [Event.broadcastEv, Event.printStd res])

/-- Confirmation-gate portion of `NewRawTxCmd`'s `RunE`, entered right
after the envelope is built.  Mirrors the source: `GenerateOnly` prints
the JSON encoding and returns; otherwise, unless `SkipConfirm` is set,
the JSON encoding is written to stderr and a confirmation is read; on a
read error or a negative answer the command prints `canceled transaction`
to stderr and returns the read error (`nil` for a plain negative
answer). -/
def rawTxAfterBuild (env : RawTxEnv) (c : ClientCtx) (tx : HostEnvelope) :
    Option Err × List Event :=
  let tr := [Event.rpcParams, Event.envelopeBuilt tx]
  if c.generateOnly then
    match env.jsonOut with
    | Except.error e => (some e, tr)
    | Except.ok j => (none, tr ++ [Event.printStd j])
  else
    if c.skipConfirm then rawTxBroadcast env tr
    else
      match env.jsonOut with
      | Except.error e => (some e, tr)
      | Except.ok j =>
        let tr2 := tr ++ [Event.printDiag j]
        match env.confirm with
        | Except.error e => (some e, tr2 ++ [Event.printDiag "canceled transaction"])
        | Except.ok b =>
          if b then rawTxBroadcast env tr2
          else (none, tr2 ++ [Event.printDiag "canceled transaction"])

/-- The `RunE` body of `NewRawTxCmd`, stage by stage in source order:
hex-decode the argument, deserialize the foreign transaction, run its
basic validation, resolve the client context, query the module's
`Params` for the fee denomination, build the envelope, then hand over to
the confirmation gate and broadcaster. -/
def rawTxRun (env : RawTxEnv) : Option Err × List Event :=
  match hexutilDecode env.arg with
  | Except.error e => (some e, [])
  | Except.ok data =>
    match unmarshalBinary data with
    | Except.error e => (some e, [])
    | Except.ok msg =>
      match validateBasic msg with
      | Except.error e => (some e, [])
      | Except.ok _ =>
        match env.ctx with
        | Except.error e => (some e, [])
        | Except.ok c =>
          match env.paramsResp with
          | Except.error e => (some e, [Event.rpcParams])
          | Except.ok denom =>
            match env.buildErr with
            | some e => (some e, [Event.rpcParams])
            | none => rawTxAfterBuild env c (buildTx msg denom)

/-- Exit code of the CLI surface: cobra exits 0 exactly when `RunE`
returned a nil error. -/
def exitCode (res : Option Err) : Nat :=
  match res with
  | none => 0
  | some _ => 1

/-- Number of query-service RPC round trips recorded in a trace. -/
def countRpc (tr : List Event) : Nat :=
  (tr.filter fun e =>
    match e with
    | Event.rpcParams => true
    | _ => false).length

/-- Number of broadcast attempts recorded in a trace. -/
def countBroadcasts (tr : List Event) : Nat :=
  (tr.filter fun e =>
    match e with
    | Event.broadcastEv => true
    | _ => false).length

/-- Strip an optional `0x`/`0X` marker from a character list. -/
def strip0x (cs : List Char) : List Char :=
  if cs.take 2 = ['0', 'x'] ∨ cs.take 2 = ['0', 'X'] then cs.drop 2 else cs

/-- Modelled from the spec: `accountToHex` (its implementation is not
under `src/`; only its call sites in `query.go` are).  It accepts an
already-hex-encoded 20-byte address or a checksummed (mixed-case) hex
address, with or without the `0x` marker, and returns the canonical
20-byte hex representation (`0x` plus 40 lower-case hex digits); any
other input fails with `InvalidAddress`. -/
def accountToHex (addr : String) : Except Err String :=
  match hexPairs (strip0x addr.toList) with
  | some bs =>
    if bs.length = 20 then Except.ok ("0x" ++ String.mk (bytesToHexChars bs))
    else Except.error Err.invalidAddress
  | none => Except.error Err.invalidAddress

/-- Restore even length of a hex digit sequence by prepending a `0`
digit. -/
def evenPad (s : List Char) : List Char :=
  if s.length % 2 = 1 then '0' :: s else s

/-- Byte decoding used by `formatKeyToHash`: strip the optional `0x`
marker, restore even length, and hex-decode; invalid hex coerces to the
empty byte string rather than failing. -/
def keyToBytes (key : String) : List Nat :=
  (hexPairs (evenPad (strip0x key.toList))).getD []

/-- Keep at most the last 32 bytes of a key. -/
def keyTail (bs : List Nat) : List Nat :=
  if 32 ≤ bs.length then bs.drop (bs.length - 32) else bs

/-- Modelled from the spec: `formatKeyToHash` (its implementation is not
under `src/`).  Its call site in `GetStorageCmd` (`query.go` line 71)
uses the result directly with no error check, fixing the signature to a
total `String → String`.  It left-pads the decoded key bytes to the fixed
32-byte storage-key width; input longer than 32 bytes keeps its last 32
bytes and undecodable input decodes to the all-zero key. -/
def formatKeyToHash (key : String) : String :=
  "0x" ++ String.mk (bytesToHexChars
    (List.replicate (32 - (keyTail (keyToBytes key)).length) 0 ++ keyTail (keyToBytes key)))

/-- The four query kinds dispatched by the Query Pipeline. -/
inductive QueryKind where
  | storage : QueryKind
  | code : QueryKind
  | params : QueryKind
  | mappedAddress : QueryKind
deriving DecidableEq, Repr

/-- One RPC round trip issued by a query command: the query kind, the
block-height context attached to the call (`none` for a background /
latest-height context), and the request fields. -/
structure QueryCall where
  kind : QueryKind
  heightCtx : Option Int
  reqArgs : List String
deriving DecidableEq, Repr

/-- Modelled from the spec: `rpctypes.ContextWithHeight` (not under
`src/`): height 0 yields a plain background context, meaning the latest
height; any other height is attached to the outgoing call. -/
def contextWithHeight (h : Int) : Option Int :=
  if h = 0 then none else some h

/-- Client query context: the height carried by `clientCtx.Height`
(0 when the caller specified none). -/
structure QueryClientCtx where
  height : Int
deriving DecidableEq, Repr

/-- Oracle environment for one run of `GetStorageCmd`'s `RunE`: context
resolution result, the two positional arguments, and the query service's
response. -/
structure StorageEnv where
  ctx : Except Err QueryClientCtx
  addressArg : String
  keyArg : String
  resp : Except Err String
deriving Repr

/-- The `RunE` body of `GetStorageCmd`: resolve the context, normalize
the address (failing on `InvalidAddress`), format the storage key (a
total function, no error check at the call site), issue the single
`Storage` RPC at `ContextWithHeight clientCtx.Height`, and print the raw
response. -/
def getStorageRun (env : StorageEnv) : Option Err × List QueryCall × List String :=
  match env.ctx with
  | Except.error e => (some e, [], [])
  | Except.ok c =>
    match accountToHex env.addressArg with
    | Except.error e => (some e, [], [])
    | Except.ok address =>
      let key := formatKeyToHash env.keyArg
      let call : QueryCall := ⟨QueryKind.storage, contextWithHeight c.height, [address, key]⟩
      match env.resp with
      | Except.error e => (some e, [call], [])
      | Except.ok res => (none, [call], [res])

/-- Oracle environment for one run of `GetCodeCmd`'s `RunE`. -/
structure CodeEnv where
  ctx : Except Err QueryClientCtx
  addressArg : String
  resp : Except Err String
deriving Repr

/-- The `RunE` body of `GetCodeCmd`: resolve the context, normalize the
address, issue the single `Code` RPC at `ContextWithHeight
clientCtx.Height`, and print the raw response. -/
def getCodeRun (env : CodeEnv) : Option Err × List QueryCall × List String :=
  match env.ctx with
  | Except.error e => (some e, [], [])
  | Except.ok c =>
    match accountToHex env.addressArg with
    | Except.error e => (some e, [], [])
    | Except.ok address =>
      let call : QueryCall := ⟨QueryKind.code, contextWithHeight c.height, [address]⟩
      match env.resp with
      | Except.error e => (some e, [call], [])
      | Except.ok res => (none, [call], [res])

/-- Oracle environment for one run of `GetParamsCmd`'s `RunE`. -/
structure ParamsEnv where
  ctx : Except Err QueryClientCtx
  resp : Except Err String
deriving Repr

/-- The `RunE` body of `GetParamsCmd`: resolve the context, issue the
single `Params` RPC at `ContextWithHeight clientCtx.Height`, and print
the raw response. -/
def getParamsRun (env : ParamsEnv) : Option Err × List QueryCall × List String :=
  match env.ctx with
  | Except.error e => (some e, [], [])
  | Except.ok c =>
    let call : QueryCall := ⟨QueryKind.params, contextWithHeight c.height, []⟩
    match env.resp with
    | Except.error e => (some e, [call], [])
    | Except.ok res => (none, [call], [res])

/-- Oracle environment for one run of `QueryMappedEvmAddressCmd`'s
`RunE`. -/
structure MappedEnv where
  ctx : Except Err QueryClientCtx
  cosmosAddressArg : String
  resp : Except Err String
deriving Repr

/-- The `RunE` body of `QueryMappedEvmAddressCmd`: resolve the context,
then issue the single `MappedEvmAddress` RPC on `context.Background()` —
not on `ContextWithHeight clientCtx.Height` — and print the raw
response.  The argument is passed through unnormalized. -/
def mappedEvmRun (env : MappedEnv) : Option Err × List QueryCall × List String :=
  match env.ctx with
  | Except.error e => (some e, [], [])
  | Except.ok _ =>
    let call : QueryCall := ⟨QueryKind.mappedAddress, none, [env.cosmosAddressArg]⟩
    match env.resp with
    | Except.error e => (some e, [call], [])
    | Except.ok res => (none, [call], [res])

/-- Oracle environment for one run of the mapping tx commands
(`getCmdSetMappingEvmAddress` / `getCmdDeleteMappingEvmAddress`): context
resolution, the EVM-address argument (set command only), the message's
`ValidateBasic` result, and the `GenerateOrBroadcastTxCLI` result. -/
structure MappingEnv where
  ctx : Except Err Unit
  arg : String
  validate : Except Err Unit
  submitRes : Except Err Unit
deriving Repr

/-- Observable events of one mapping-command run: a print to standard
output and the hand-off of the message to `GenerateOrBroadcastTxCLI`. -/
inductive MappingEvent where
  | printedStd : String → MappingEvent
  | submitted : MappingEvent
deriving DecidableEq, Repr

/-- The `RunE` body of `getCmdSetMappingEvmAddress`: resolve the context,
print the pubkey argument, build the message, run its `ValidateBasic`
(returning its error on violation, before any generation or broadcast),
then hand the message to `GenerateOrBroadcastTxCLI`. -/
def setMappingRun (env : MappingEnv) : Option Err × List MappingEvent :=
  match env.ctx with
  | Except.error e => (some e, [])
  | Except.ok _ =>
    let tr := [MappingEvent.printedStd env.arg]
    match env.validate with
    | Except.error e => (some e, tr)
    | Except.ok _ =>
      match env.submitRes with
      | Except.error e => (some e, tr ++ [MappingEvent.submitted])
      | Except.ok _ => (none, tr ++ [MappingEvent.submitted])

/-- The `RunE` body of `getCmdDeleteMappingEvmAddress`: resolve the
context, build the message, run its `ValidateBasic` (returning its error
on violation, before any generation or broadcast), then hand the message
to `GenerateOrBroadcastTxCLI`. -/
def deleteMappingRun (env : MappingEnv) : Option Err × List MappingEvent :=
  match env.ctx with
  | Except.error e => (some e, [])
  | Except.ok _ =>
    match env.validate with
    | Except.error e => (some e, [])
    | Except.ok _ =>
      match env.submitRes with
      | Except.error e => (some e, [MappingEvent.submitted])
      | Except.ok _ => (none, [MappingEvent.submitted])

/-- The sample well-formed foreign transaction: payload `[1, 2]`,
signature `[3]`; its binary encoding is `[2, 1, 2, 1, 3]`. -/
def sampleTx : MsgEthereumTx :=
  ⟨[1, 2], [3]⟩

/-- Hex form of the binary encoding of `sampleTx`. -/
def sampleTxHex : String :=
  "0x0201020103"

/-- Interactive-mode environment in which every collaborator succeeds and
the confirmation read returns a negative answer. -/
def envInteractiveNo : RawTxEnv :=
  ⟨sampleTxHex, Except.ok ⟨false, false⟩, Except.ok "aphoton", none,
    Except.ok "JSONTX", Except.ok false, Except.ok [9], Except.ok "RECEIPT"⟩

/-- Interactive-mode environment in which the confirmation read fails. -/
def envInteractiveReadFail : RawTxEnv :=
  ⟨sampleTxHex, Except.ok ⟨false, false⟩, Except.ok "aphoton", none,
    Except.ok "JSONTX", Except.error Err.confirmReadError, Except.ok [9],
    Except.ok "RECEIPT"⟩

/-- Generate-only environment in which every collaborator succeeds. -/
def envGenerateOnly : RawTxEnv :=
  ⟨sampleTxHex, Except.ok ⟨true, false⟩, Except.ok "aphoton", none,
    Except.ok "JSONTX", Except.ok true, Except.ok [9], Except.ok "RECEIPT"⟩

/-- Environment whose argument encodes an empty-signature foreign
transaction (payload `[5]`, signature `[]`, binary encoding
`[1, 5, 0]`). -/
def envEmptySig : RawTxEnv :=
  ⟨"0x010500", Except.ok ⟨false, false⟩, Except.ok "aphoton", none,
    Except.ok "JSONTX", Except.ok true, Except.ok [9], Except.ok "RECEIPT"⟩

/-- Environment whose argument is not valid hex. -/
def envBadHex : RawTxEnv :=
  ⟨"0xzz", Except.ok ⟨false, false⟩, Except.ok "aphoton", none,
    Except.ok "JSONTX", Except.ok true, Except.ok [9], Except.ok "RECEIPT"⟩

/-- Skip-confirmation environment in which every collaborator succeeds,
so the run reaches broadcast. -/
def envSkipConfirm : RawTxEnv :=
  ⟨sampleTxHex, Except.ok ⟨false, true⟩, Except.ok "aphoton", none,
    Except.ok "JSONTX", Except.ok true, Except.ok [9], Except.ok "RECEIPT"⟩

/-- Environment in which the `Params` fee-denomination query fails. -/
def envParamsFail : RawTxEnv :=
  ⟨sampleTxHex, Except.ok ⟨false, false⟩, Except.error Err.remoteQueryError, none,
    Except.ok "JSONTX", Except.ok true, Except.ok [9], Except.ok "RECEIPT"⟩

/-- Storage query environment with height 0 (latest), a valid address
argument, and a key argument that is not valid hex. -/
def envStorageBadKey : StorageEnv :=
  ⟨Except.ok ⟨0⟩, "0x1122334455667788990011223344556677889900", "0xzz",
    Except.ok "VAL"⟩

/-- Storage query environment with caller-specified height 7. -/
def envStorageHeight7 : StorageEnv :=
  ⟨Except.ok ⟨7⟩, "0x1122334455667788990011223344556677889900", "0x01",
    Except.ok "VAL"⟩

/-- Code query environment with caller-specified height 3. -/
def envCodeHeight3 : CodeEnv :=
  ⟨Except.ok ⟨3⟩, "0x1122334455667788990011223344556677889900",
    Except.ok "BYTECODE"⟩

/-- Params query environment with height 0 (latest). -/
def envParamsLatest : ParamsEnv :=
  ⟨Except.ok ⟨0⟩, Except.ok "PARAMS"⟩

/-- Mapped-address query environment with caller-specified height 5. -/
def envMappedHeight5 : MappedEnv :=
  ⟨Except.ok ⟨5⟩, "orai1knzg7jdc49ghnc2pkqg6vks8ccsk6efzfgv6gv",
    Except.ok "0xmapped"⟩

/-- Mapping-command environment whose message fails `ValidateBasic`. -/
def envMappingBad : MappingEnv :=
  ⟨Except.ok (), "AvSl0d9JrHCW4mdEyHvZu076WxLgH0bBVLigUcFm4UjV",
    Except.error Err.validationError, Except.ok ()⟩

/-- Mapping-command environment whose message passes `ValidateBasic`. -/
def envMappingGood : MappingEnv :=
  ⟨Except.ok (), "AvSl0d9JrHCW4mdEyHvZu076WxLgH0bBVLigUcFm4UjV",
    Except.ok (), Except.ok ()⟩

theorem hexVal_lt (c : Char) (d : Nat) (h : hexVal c = some d) : d < 16 := by
  unfold hexVal at h
  split at h
  · rename_i hc
    rw [Option.some.injEq] at h
    omega
  · split at h
    · rename_i hc
      rw [Option.some.injEq] at h
      omega
    · split at h
      · rename_i hc
        rw [Option.some.injEq] at h
        omega
      · exact absurd h (by simp)

theorem hexPairs_lt_aux (cs : List Char) :
    (∀ bs, hexPairs cs = some bs → ∀ b ∈ bs, b < 256) ∧
      (∀ c bs, hexPairs (c :: cs) = some bs → ∀ b ∈ bs, b < 256) := by
  induction cs with
  | nil =>
    constructor
    · intro bs h b hb
      unfold hexPairs at h
      rw [Option.some.injEq] at h
      subst h
      exact absurd hb (List.not_mem_nil b)
    · intro c bs h
      unfold hexPairs at h
      exact absurd h (by simp)
  | cons hd tl ih =>
    constructor
    · exact ih.2 hd
    · intro c bs h b hb
      unfold hexPairs at h
      rcases h1 : hexVal c with _ | v1 <;> rw [h1] at h
      · exact absurd h (by simp)
      rcases h2 : hexVal hd with _ | v2 <;> rw [h2] at h
      · exact absurd h (by simp)
      rcases h3 : hexPairs tl with _ | tl2 <;> rw [h3] at h
      · exact absurd h (by simp)
      rw [Option.some.injEq] at h
      subst h
      rcases List.mem_cons.mp hb with hb | hb
      · have hv1 := hexVal_lt c v1 h1
        have hv2 := hexVal_lt hd v2 h2
        omega
      · exact ih.1 tl2 h3 b hb

theorem hexPairs_lt (cs : List Char) (bs : List Nat) (h : hexPairs cs = some bs) :
    ∀ b ∈ bs, b < 256 :=
  (hexPairs_lt_aux cs).1 bs h

theorem hexVal_hexDigitChar_fin : ∀ d : Fin 16, hexVal (hexDigitChar d.val) = some d.val := by
  decide

theorem hexVal_hexDigitChar (d : Nat) (h : d < 16) : hexVal (hexDigitChar d) = some d :=
  hexVal_hexDigitChar_fin ⟨d, h⟩

theorem hexPairs_bytesToHexChars (bs : List Nat) (h : ∀ b ∈ bs, b < 256) :
    hexPairs (bytesToHexChars bs) = some bs := by
  induction bs with
  | nil => rfl
  | cons b rest ih =>
    have hb : b < 256 := h b (List.mem_cons_self b rest)
    have hrest : ∀ x ∈ rest, x < 256 := fun x hx => h x (List.mem_cons_of_mem b hx)
    unfold bytesToHexChars hexPairs
    rw [hexVal_hexDigitChar (b / 16) (by omega), hexVal_hexDigitChar (b % 16) (by omega),
      ih hrest]
    show some ((b / 16 * 16 + b % 16) :: rest) = some (b :: rest)
    have : b / 16 * 16 + b % 16 = b := by omega
    rw [this]

theorem bytesToHexChars_length (bs : List Nat) :
    (bytesToHexChars bs).length = 2 * bs.length := by
  induction bs with
  | nil => rfl
  | cons b rest ih =>
    unfold bytesToHexChars
    simp only [List.length_cons, ih]
    omega

theorem marshal_unmarshal (bs : List Nat) (msg : MsgEthereumTx)
    (h : unmarshalBinary bs = Except.ok msg) : marshalBinary msg = bs := by
  cases bs with
  | nil => exact absurd h (by simp [unmarshalBinary])
  | cons n rest =>
    simp only [unmarshalBinary] at h
    split at h
    · rename_i hle
      split at h
      · exact absurd h (by simp)
      · rename_i m rest2 hd
        split at h
        · rename_i hm
          rw [Except.ok.injEq] at h
          subst h
          show (rest.take n).length :: (rest.take n ++ rest2.length :: rest2) = n :: rest
          have hlen : (rest.take n).length = n := by
            rw [List.length_take]
            omega
          rw [hlen, ← hm, ← hd, List.take_append_drop]
        · exact absurd h (by simp)
    · exact absurd h (by simp)

/-- Claim C1: decoding a well-formed foreign transaction blob via the Raw
Decoder (hex decode plus binary deserialization), building the host
envelope, and re-extracting the wrapped foreign transaction yields the
very transaction that was decoded, whose payload and signature re-encode
byte-identically to the original blob: the bridge re-wraps and never
mutates transaction semantics. -/
theorem c1_bridge_roundtrip (s : String) (bs : List Nat) (msg : MsgEthereumTx)
    (denom : String) (h1 : hexutilDecode s = Except.ok bs)
    (h2 : unmarshalBinary bs = Except.ok msg) :
    extractMsg (buildTx msg denom) = msg ∧
      marshalBinary (extractMsg (buildTx msg denom)) = bs :=
  ⟨rfl, marshal_unmarshal bs msg h2⟩

/-- Witness for C1 at the concrete blob `0x0201020103` (payload `[1, 2]`,
signature `[3]`). -/
theorem c1_bridge_roundtrip_witness :
    extractMsg (buildTx sampleTx "aphoton") = sampleTx ∧
      marshalBinary (extractMsg (buildTx sampleTx "aphoton")) = [2, 1, 2, 1, 3] :=
  c1_bridge_roundtrip sampleTxHex [2, 1, 2, 1, 3] sampleTx "aphoton" rfl rfl

theorem rawTxRun_eq_afterBuild (env : RawTxEnv) (data : List Nat)
    (msg : MsgEthereumTx) (c : ClientCtx) (denom : String)
    (h1 : hexutilDecode env.arg = Except.ok data)
    (h2 : unmarshalBinary data = Except.ok msg)
    (h3 : validateBasic msg = Except.ok ())
    (h4 : env.ctx = Except.ok c)
    (h5 : env.paramsResp = Except.ok denom)
    (h6 : env.buildErr = none) :
    rawTxRun env = rawTxAfterBuild env c (buildTx msg denom) := by
  simp only [rawTxRun, h1, h2, h3, h4, h5, h6]

/-- Counterexample to claim C2 as stated: in the interactive run
`envInteractiveNo` the user answers no; the command prints `canceled
transaction` to the diagnostic stream and broadcasts nothing, but `RunE`
returns the nil error, so the CLI exits with code 0 — not the claimed
non-zero exit code, and not an outcome distinct from the success path's
nil result.  In the run `envInteractiveReadFail` a failed confirmation
read returns the read error itself, i.e. the ordinary error path. -/
theorem c2_counterexample :
    (rawTxRun envInteractiveNo).1 = none ∧
      exitCode (rawTxRun envInteractiveNo).1 = 0 ∧
      countBroadcasts (rawTxRun envInteractiveNo).2 = 0 ∧
      Event.printDiag "canceled transaction" ∈ (rawTxRun envInteractiveNo).2 ∧
      (rawTxRun envInteractiveReadFail).1 = some Err.confirmReadError ∧
      exitCode (rawTxRun envInteractiveReadFail).1 = 1 := by
  refine ⟨rfl, rfl, rfl, ?_, rfl, rfl⟩
  decide

/-- Claim C2 (amended): in interactive mode, a negative answer or a
failed confirmation read aborts the pipeline before broadcast, printing
`canceled transaction` to the diagnostic stream, and nothing is
broadcast; however, a negative answer makes `RunE` return the nil error,
so the CLI exits with code 0 — indistinguishable from success at the
exit-code level — while a failed read propagates the read error through
the ordinary error path (non-zero exit). -/
theorem c2_cancel_behavior (env : RawTxEnv) (data : List Nat)
    (msg : MsgEthereumTx) (c : ClientCtx) (denom j : String)
    (h1 : hexutilDecode env.arg = Except.ok data)
    (h2 : unmarshalBinary data = Except.ok msg)
    (h3 : validateBasic msg = Except.ok ())
    (h4 : env.ctx = Except.ok c)
    (h5 : env.paramsResp = Except.ok denom)
    (h6 : env.buildErr = none)
    (hg : c.generateOnly = false)
    (hs : c.skipConfirm = false)
    (hj : env.jsonOut = Except.ok j) :
    (env.confirm = Except.ok false →
       rawTxRun env =
         (none, [Event.rpcParams, Event.envelopeBuilt (buildTx msg denom),
           Event.printDiag j, Event.printDiag "canceled transaction"]) ∧
         exitCode (rawTxRun env).1 = 0 ∧
         countBroadcasts (rawTxRun env).2 = 0) ∧
    (∀ e, env.confirm = Except.error e →
       rawTxRun env =
         (some e, [Event.rpcParams, Event.envelopeBuilt (buildTx msg denom),
           Event.printDiag j, Event.printDiag "canceled transaction"]) ∧
         exitCode (rawTxRun env).1 = 1 ∧
         countBroadcasts (rawTxRun env).2 = 0) := by
  have hrun := rawTxRun_eq_afterBuild env data msg c denom h1 h2 h3 h4 h5 h6
  constructor
  · intro hc
    rw [hrun]
    simp [rawTxAfterBuild, hg, hs, hj, hc, exitCode, countBroadcasts]
  · intro e hc
    rw [hrun]
    simp [rawTxAfterBuild, hg, hs, hj, hc, exitCode, countBroadcasts]

/-- Witness for the amended C2 at the concrete negative-answer run. -/
theorem c2_cancel_behavior_witness :
    rawTxRun envInteractiveNo =
      (none, [Event.rpcParams, Event.envelopeBuilt (buildTx sampleTx "aphoton"),
        Event.printDiag "JSONTX", Event.printDiag "canceled transaction"]) ∧
      exitCode (rawTxRun envInteractiveNo).1 = 0 ∧
      countBroadcasts (rawTxRun envInteractiveNo).2 = 0 :=
  (c2_cancel_behavior envInteractiveNo [2, 1, 2, 1, 3] sampleTx ⟨false, false⟩
    "aphoton" "JSONTX" rfl rfl rfl rfl rfl rfl rfl rfl rfl).1 rfl

/-- Counterexample to claim C3 as stated: the generate-only run
`envGenerateOnly` on a valid transaction prints the envelope JSON and
broadcasts nothing, but performs one RPC call — the fee-denomination
`Params` query issued before the generate-only branch — not the claimed
zero. -/
theorem c3_counterexample :
    rawTxRun envGenerateOnly =
      (none, [Event.rpcParams, Event.envelopeBuilt (buildTx sampleTx "aphoton"),
        Event.printStd "JSONTX"]) ∧
      countRpc (rawTxRun envGenerateOnly).2 = 1 ∧
      ¬ countRpc (rawTxRun envGenerateOnly).2 = 0 ∧
      countBroadcasts (rawTxRun envGenerateOnly).2 = 0 := by
  refine ⟨rfl, rfl, ?_, rfl⟩
  decide

/-- Claim C3 (amended): with `--generate-only` set, a valid `tx raw` run
prints the envelope's canonical JSON text form and performs zero
broadcasts, but exactly one RPC call: the fee-denomination `Params`
query, which the source issues before it consults the generate-only
flag. -/
theorem c3_generate_only (env : RawTxEnv) (data : List Nat)
    (msg : MsgEthereumTx) (c : ClientCtx) (denom j : String)
    (h1 : hexutilDecode env.arg = Except.ok data)
    (h2 : unmarshalBinary data = Except.ok msg)
    (h3 : validateBasic msg = Except.ok ())
    (h4 : env.ctx = Except.ok c)
    (h5 : env.paramsResp = Except.ok denom)
    (h6 : env.buildErr = none)
    (hg : c.generateOnly = true)
    (hj : env.jsonOut = Except.ok j) :
    rawTxRun env =
      (none, [Event.rpcParams, Event.envelopeBuilt (buildTx msg denom),
        Event.printStd j]) ∧
      countRpc (rawTxRun env).2 = 1 ∧
      countBroadcasts (rawTxRun env).2 = 0 := by
  have hrun := rawTxRun_eq_afterBuild env data msg c denom h1 h2 h3 h4 h5 h6
  rw [hrun]
  simp [rawTxAfterBuild, hg, hj, countRpc, countBroadcasts]

/-- Witness for the amended C3 at the concrete generate-only run. -/
theorem c3_generate_only_witness :
    rawTxRun envGenerateOnly =
      (none, [Event.rpcParams, Event.envelopeBuilt (buildTx sampleTx "aphoton"),
        Event.printStd "JSONTX"]) ∧
      countRpc (rawTxRun envGenerateOnly).2 = 1 ∧
      countBroadcasts (rawTxRun envGenerateOnly).2 = 0 :=
  c3_generate_only envGenerateOnly [2, 1, 2, 1, 3] sampleTx ⟨true, false⟩
    "aphoton" "JSONTX" rfl rfl rfl rfl rfl rfl rfl rfl

/-- Claim C4: an input that decodes and deserializes to a foreign
transaction with an empty signature fails with `ValidationError` and
leaves an empty trace: no RPC call — in particular no fee-denomination
`Params` fetch — is made. -/
theorem c4_validation_before_rpc (env : RawTxEnv) (data : List Nat)
    (msg : MsgEthereumTx)
    (h1 : hexutilDecode env.arg = Except.ok data)
    (h2 : unmarshalBinary data = Except.ok msg)
    (hsig : msg.signature = []) :
    rawTxRun env = (some Err.validationError, []) ∧
      countRpc (rawTxRun env).2 = 0 := by
  have hv : validateBasic msg = Except.error Err.validationError := by
    simp [validateBasic, hsig]
  have hrun : rawTxRun env = (some Err.validationError, []) := by
    simp only [rawTxRun, h1, h2, hv]
  exact ⟨hrun, by rw [hrun]; rfl⟩

/-- Witness for C4 at the concrete empty-signature blob `0x010500`. -/
theorem c4_validation_before_rpc_witness :
    rawTxRun envEmptySig = (some Err.validationError, []) ∧
      countRpc (rawTxRun envEmptySig).2 = 0 :=
  c4_validation_before_rpc envEmptySig [1, 5, 0] ⟨[5], []⟩ rfl rfl rfl

/-- Claim C5: an argument that is not valid hex makes the Raw Decoder
fail with `HexDecodeError` — the only error `hexutilDecode` produces —
and the run's trace is empty: the input never reaches the Envelope
Builder, no RPC is issued and no broadcast is attempted. -/
theorem c5_hex_decode_error (env : RawTxEnv) (e : Err)
    (h : hexutilDecode env.arg = Except.error e) :
    e = Err.hexDecodeError ∧ rawTxRun env = (some Err.hexDecodeError, []) := by
  have he : e = Err.hexDecodeError := by
    unfold hexutilDecode at h
    split at h
    · rcases hp : hexPairs (env.arg.toList.drop 2) with _ | bs <;> rw [hp] at h
      · rw [Except.error.injEq] at h
        exact h.symm
      · exact absurd h (by simp)
    · rw [Except.error.injEq] at h
      exact h.symm
  subst he
  exact ⟨rfl, by simp only [rawTxRun, h]⟩

/-- Witness for C5 at the concrete malformed argument `0xzz`. -/
theorem c5_hex_decode_error_witness :
    Err.hexDecodeError = Err.hexDecodeError ∧
      rawTxRun envBadHex = (some Err.hexDecodeError, []) :=
  c5_hex_decode_error envBadHex Err.hexDecodeError rfl

/-- Counterexample to claim C6 as stated: the mapped-address query in
`envMappedHeight5` runs with caller-specified height 5, for which
`ContextWithHeight` would produce the height-5 context `some 5`; yet the
single RPC it issues carries the background context `none` — the
caller-specified height is dropped for this query kind. -/
theorem c6_counterexample :
    mappedEvmRun envMappedHeight5 =
      (none, [⟨QueryKind.mappedAddress, none,
        ["orai1knzg7jdc49ghnc2pkqg6vks8ccsk6efzfgv6gv"]⟩], ["0xmapped"]) ∧
      contextWithHeight (5 : Int) = some 5 ∧
      (none : Option Int) ≠ some (5 : Int) := by
  refine ⟨rfl, rfl, ?_⟩
  decide

/-- Claim C6 (amended): on a successful run, every query command issues
exactly one RPC call and prints the raw response unmodified; the
`storage`, `code` and `params` queries attach `ContextWithHeight
clientCtx.Height` (the latest height when none is specified), but the
`mapped-address` query always issues its call on a background (latest)
context, ignoring any caller-specified height. -/
theorem c6_dispatch :
    (∀ (env : StorageEnv) (c : QueryClientCtx) (a r : String),
       env.ctx = Except.ok c → accountToHex env.addressArg = Except.ok a →
       env.resp = Except.ok r →
       getStorageRun env =
         (none, [⟨QueryKind.storage, contextWithHeight c.height,
           [a, formatKeyToHash env.keyArg]⟩], [r])) ∧
    (∀ (env : CodeEnv) (c : QueryClientCtx) (a r : String),
       env.ctx = Except.ok c → accountToHex env.addressArg = Except.ok a →
       env.resp = Except.ok r →
       getCodeRun env =
         (none, [⟨QueryKind.code, contextWithHeight c.height, [a]⟩], [r])) ∧
    (∀ (env : ParamsEnv) (c : QueryClientCtx) (r : String),
       env.ctx = Except.ok c → env.resp = Except.ok r →
       getParamsRun env =
         (none, [⟨QueryKind.params, contextWithHeight c.height, []⟩], [r])) ∧
    (∀ (env : MappedEnv) (c : QueryClientCtx) (r : String),
       env.ctx = Except.ok c → env.resp = Except.ok r →
       mappedEvmRun env =
         (none, [⟨QueryKind.mappedAddress, none, [env.cosmosAddressArg]⟩], [r])) := by
  refine ⟨?_, ?_, ?_, ?_⟩
  · intro env c a r h1 h2 h3
    simp only [getStorageRun, h1, h2, h3]
  · intro env c a r h1 h2 h3
    simp only [getCodeRun, h1, h2, h3]
  · intro env c r h1 h2
    simp only [getParamsRun, h1, h2]
  · intro env c r h1 h2
    simp only [mappedEvmRun, h1, h2]

/-- Witness for the amended C6 at one concrete run of each query kind. -/
theorem c6_dispatch_witness :
    getStorageRun envStorageHeight7 =
      (none, [⟨QueryKind.storage, contextWithHeight (7 : Int),
        ["0x1122334455667788990011223344556677889900",
          formatKeyToHash "0x01"]⟩], ["VAL"]) ∧
    getCodeRun envCodeHeight3 =
      (none, [⟨QueryKind.code, contextWithHeight (3 : Int),
        ["0x1122334455667788990011223344556677889900"]⟩], ["BYTECODE"]) ∧
    getParamsRun envParamsLatest =
      (none, [⟨QueryKind.params, contextWithHeight (0 : Int), []⟩], ["PARAMS"]) ∧
    mappedEvmRun envMappedHeight5 =
      (none, [⟨QueryKind.mappedAddress, none,
        ["orai1knzg7jdc49ghnc2pkqg6vks8ccsk6efzfgv6gv"]⟩], ["0xmapped"]) :=
  ⟨c6_dispatch.1 envStorageHeight7 ⟨7⟩
      "0x1122334455667788990011223344556677889900" "VAL" rfl rfl rfl,
    c6_dispatch.2.1 envCodeHeight3 ⟨3⟩
      "0x1122334455667788990011223344556677889900" "BYTECODE" rfl rfl rfl,
    c6_dispatch.2.2.1 envParamsLatest ⟨0⟩ "PARAMS" rfl rfl,
    c6_dispatch.2.2.2 envMappedHeight5 ⟨5⟩ "0xmapped" rfl rfl⟩

theorem afterBuild_take2 (env : RawTxEnv) (c : ClientCtx) (tx : HostEnvelope) :
    (rawTxAfterBuild env c tx).2.take 2 =
      [Event.rpcParams, Event.envelopeBuilt tx] := by
  simp only [rawTxAfterBuild, rawTxBroadcast]
  repeat' split
  all_goals rfl

/-- Claim C7: in every `tx raw` run that reaches broadcast, the
fee-denomination `Params` query is the first recorded event and envelope
construction the second, so the parameter fetch completes before the
envelope is constructed and before broadcast is attempted; the built
envelope's denomination is exactly the queried one (no fallback
default); and when the parameter query fails after the local stages
succeed, the run returns that same propagated error with no envelope
built and no broadcast. -/
theorem c7_params_order (env : RawTxEnv) :
    (Event.broadcastEv ∈ (rawTxRun env).2 →
       ∃ tx, (rawTxRun env).2.take 2 =
           [Event.rpcParams, Event.envelopeBuilt tx] ∧
         ∃ denom, env.paramsResp = Except.ok denom ∧ tx.feeDenom = denom) ∧
    (∀ (data : List Nat) (msg : MsgEthereumTx) (c : ClientCtx) (e : Err),
       hexutilDecode env.arg = Except.ok data →
       unmarshalBinary data = Except.ok msg →
       validateBasic msg = Except.ok () →
       env.ctx = Except.ok c →
       env.paramsResp = Except.error e →
       rawTxRun env = (some e, [Event.rpcParams])) := by
  constructor
  · intro hmem
    rcases h1 : hexutilDecode env.arg with e | data
    · have hr : rawTxRun env = (some e, []) := by simp only [rawTxRun, h1]
      rw [hr] at hmem
      simp at hmem
    rcases h2 : unmarshalBinary data with e | msg
    · have hr : rawTxRun env = (some e, []) := by simp only [rawTxRun, h1, h2]
      rw [hr] at hmem
      simp at hmem
    rcases h3 : validateBasic msg with e | ⟨⟩
    · have hr : rawTxRun env = (some e, []) := by
        simp only [rawTxRun, h1, h2, h3]
      rw [hr] at hmem
      simp at hmem
    rcases h4 : env.ctx with e | c
    · have hr : rawTxRun env = (some e, []) := by
        simp only [rawTxRun, h1, h2, h3, h4]
      rw [hr] at hmem
      simp at hmem
    rcases h5 : env.paramsResp with e | denom
    · have hr : rawTxRun env = (some e, [Event.rpcParams]) := by
        simp only [rawTxRun, h1, h2, h3, h4, h5]
      rw [hr] at hmem
      simp at hmem
    rcases h6 : env.buildErr with _ | e
    · have hrun := rawTxRun_eq_afterBuild env data msg c denom h1 h2 h3 h4 h5 h6
      refine ⟨buildTx msg denom, ?_, denom, rfl, rfl⟩
      rw [hrun]
      exact afterBuild_take2 env c (buildTx msg denom)
    · have hr : rawTxRun env = (some e, [Event.rpcParams]) := by
        simp only [rawTxRun, h1, h2, h3, h4, h5, h6]
      rw [hr] at hmem
      simp at hmem
  · intro data msg c e h1 h2 h3 h4 h5
    simp only [rawTxRun, h1, h2, h3, h4, h5]

/-- Witness for C7: the skip-confirmation run `envSkipConfirm` reaches
broadcast with the parameter fetch first and the queried denomination in
the envelope; the run `envParamsFail` whose parameter query fails
returns the propagated error with only the parameter RPC in its
trace. -/
theorem c7_params_order_witness :
    (∃ tx, (rawTxRun envSkipConfirm).2.take 2 =
        [Event.rpcParams, Event.envelopeBuilt tx] ∧
      ∃ denom, envSkipConfirm.paramsResp = Except.ok denom ∧
        tx.feeDenom = denom) ∧
      rawTxRun envParamsFail = (some Err.remoteQueryError, [Event.rpcParams]) :=
  ⟨(c7_params_order envSkipConfirm).1 (by decide),
    (c7_params_order envParamsFail).2 [2, 1, 2, 1, 3] sampleTx ⟨false, false⟩
      Err.remoteQueryError rfl rfl rfl rfl rfl⟩

theorem keyToBytes_lt (key : String) : ∀ b ∈ keyToBytes key, b < 256 := by
  intro b hb
  unfold keyToBytes at hb
  rcases hp : hexPairs (evenPad (strip0x key.toList)) with _ | bs <;> rw [hp] at hb
  · simp at hb
  · simp only [Option.getD_some] at hb
    exact hexPairs_lt _ bs hp b hb

theorem keyTail_length_le (bs : List Nat) : (keyTail bs).length ≤ 32 := by
  unfold keyTail
  split
  · rename_i h
    rw [List.length_drop]
    omega
  · rename_i h
    omega

theorem keyTail_of_le (bs : List Nat) (h : bs.length ≤ 32) : keyTail bs = bs := by
  unfold keyTail
  split
  · rename_i h2
    have hz : bs.length - 32 = 0 := by omega
    rw [hz, List.drop_zero]
  · rfl

theorem keyTail_subset (bs : List Nat) : ∀ b ∈ keyTail bs, b ∈ bs := by
  unfold keyTail
  split
  · intro b hb
    exact List.drop_subset _ _ hb
  · intro b hb
    exact hb

/-- Counterexample to claim C8 as stated: `formatKeyToHash` cannot fail
with `InvalidKey` — its call site in `GetStorageCmd` uses the returned
string directly with no error check.  On the non-hex input `0xzz` it
returns the all-zero 32-byte key, and the storage command proceeds to
issue its RPC with that key instead of failing. -/
theorem c8_counterexample :
    formatKeyToHash "0xzz" =
      "0x0000000000000000000000000000000000000000000000000000000000000000" ∧
      getStorageRun envStorageBadKey =
        (none, [⟨QueryKind.storage, none,
          ["0x1122334455667788990011223344556677889900",
            "0x0000000000000000000000000000000000000000000000000000000000000000"]⟩],
          ["VAL"]) :=
  ⟨rfl, rfl⟩

/-- Claim C8 (amended): `formatKeyToHash` is total and never fails; for
every input whose decoded form is at most 32 bytes, the output is `0x`
followed by the hex encoding of exactly 32 bytes, namely the input bytes
left-padded with zero bytes; overlong input is truncated to its last 32
bytes and invalid hex decodes to the all-zero key instead of failing
with `InvalidKey`. -/
theorem c8_format_key_pads (key : String)
    (hle : (keyToBytes key).length ≤ 32) :
    (formatKeyToHash key).toList.take 2 = ['0', 'x'] ∧
      hexPairs ((formatKeyToHash key).toList.drop 2) =
        some (List.replicate (32 - (keyToBytes key).length) 0 ++ keyToBytes key) ∧
      (List.replicate (32 - (keyToBytes key).length) 0 ++ keyToBytes key).length
        = 32 := by
  have htail : keyTail (keyToBytes key) = keyToBytes key := keyTail_of_le _ hle
  have h0x : ∀ l : List Char, ("0x" ++ String.mk l).toList = '0' :: 'x' :: l :=
    fun l => rfl
  have hfmt : (formatKeyToHash key).toList =
      '0' :: 'x' :: bytesToHexChars
        (List.replicate (32 - (keyTail (keyToBytes key)).length) 0 ++
          keyTail (keyToBytes key)) :=
    h0x _
  rw [hfmt, htail]
  refine ⟨rfl, ?_, ?_⟩
  · show hexPairs (bytesToHexChars
      (List.replicate (32 - (keyToBytes key).length) 0 ++ keyToBytes key)) = _
    apply hexPairs_bytesToHexChars
    intro b hb
    rcases List.mem_append.mp hb with hb | hb
    · have := List.eq_of_mem_replicate hb
      omega
    · exact keyToBytes_lt key b hb
  · rw [List.length_append, List.length_replicate]
    omega

/-- Witness for the amended C8 at the concrete short key `0x01`. -/
theorem c8_format_key_pads_witness :
    (formatKeyToHash "0x01").toList.take 2 = ['0', 'x'] ∧
      hexPairs ((formatKeyToHash "0x01").toList.drop 2) =
        some (List.replicate (32 - (keyToBytes "0x01").length) 0 ++
          keyToBytes "0x01") ∧
      (List.replicate (32 - (keyToBytes "0x01").length) 0 ++
        keyToBytes "0x01").length = 32 :=
  c8_format_key_pads "0x01" (by decide)

/-- Claim C9: `accountToHex` succeeds on every valid 20-byte address
given in raw-hex or checksummed (mixed-case) form, returning the
canonical lower-case hex representation; it is idempotent — applied to
its own output it returns that output unchanged — and, being a plain
function of its input in this embedding, pure; it fails with
`InvalidAddress` on input that is not valid hex and on hex of the wrong
length. -/
theorem c9_account_to_hex :
    (∀ (addr : String) (bs : List Nat),
       hexPairs (strip0x addr.toList) = some bs → bs.length = 20 →
       accountToHex addr =
         Except.ok ("0x" ++ String.mk (bytesToHexChars bs))) ∧
    (∀ addr out : String, accountToHex addr = Except.ok out →
       accountToHex out = Except.ok out) ∧
    (∀ addr : String, hexPairs (strip0x addr.toList) = none →
       accountToHex addr = Except.error Err.invalidAddress) ∧
    (∀ (addr : String) (bs : List Nat),
       hexPairs (strip0x addr.toList) = some bs → bs.length ≠ 20 →
       accountToHex addr = Except.error Err.invalidAddress) := by
  refine ⟨?_, ?_, ?_, ?_⟩
  · intro addr bs h1 h2
    simp only [accountToHex, h1]
    rw [if_pos h2]
  · intro addr out h
    rcases hp : hexPairs (strip0x addr.toList) with _ | bs
    · simp only [accountToHex, hp] at h
      exact absurd h (by simp)
    · simp only [accountToHex, hp] at h
      split at h
      · rename_i hlen
        rw [Except.ok.injEq] at h
        subst h
        have hmem : ∀ b ∈ bs, b < 256 := hexPairs_lt _ bs hp
        have hx : ("0x" ++ String.mk (bytesToHexChars bs)).toList =
            '0' :: 'x' :: bytesToHexChars bs := rfl
        have hstrip : strip0x ('0' :: 'x' :: bytesToHexChars bs) =
            bytesToHexChars bs := by
          unfold strip0x
          simp
        simp only [accountToHex, hx, hstrip, hexPairs_bytesToHexChars bs hmem]
        rw [if_pos hlen]
      · exact absurd h (by simp)
  · intro addr h
    simp only [accountToHex, h]
  · intro addr bs h1 h2
    simp only [accountToHex, h1]
    rw [if_neg h2]

/-- Witness for C9: success and canonicalization on a checksummed
(mixed-case) 20-byte address, idempotence on its canonical output,
`InvalidAddress` on non-hex input and on hex of the wrong length. -/
theorem c9_account_to_hex_witness :
    accountToHex "0xAABBccDDeeFF00112233445566778899aAbBcCdD" =
      Except.ok ("0x" ++ String.mk (bytesToHexChars
        [170, 187, 204, 221, 238, 255, 0, 17, 34, 51,
          68, 85, 102, 119, 136, 153, 170, 187, 204, 221])) ∧
    accountToHex "0xaabbccddeeff00112233445566778899aabbccdd" =
      Except.ok "0xaabbccddeeff00112233445566778899aabbccdd" ∧
    accountToHex "zz" = Except.error Err.invalidAddress ∧
    accountToHex "0x01" = Except.error Err.invalidAddress :=
  ⟨c9_account_to_hex.1 "0xAABBccDDeeFF00112233445566778899aAbBcCdD"
      [170, 187, 204, 221, 238, 255, 0, 17, 34, 51,
        68, 85, 102, 119, 136, 153, 170, 187, 204, 221] rfl rfl,
    c9_account_to_hex.2.1 "0xAABBccDDeeFF00112233445566778899aAbBcCdD"
      "0xaabbccddeeff00112233445566778899aabbccdd" rfl,
    c9_account_to_hex.2.2.1 "zz" rfl,
    c9_account_to_hex.2.2.2 "0x01" [1] rfl (by decide)⟩

/-- Claim C10: in both mapping commands the constructed message's
`ValidateBasic` runs before any generation or broadcast step: a failing
message makes the command return the validation error with no hand-off
to `GenerateOrBroadcastTxCLI`, and any run whose trace contains the
hand-off had a passing validation. -/
theorem c10_validate_first :
    (∀ (env : MappingEnv) (e : Err), env.ctx = Except.ok () →
       env.validate = Except.error e →
       setMappingRun env = (some e, [MappingEvent.printedStd env.arg]) ∧
         deleteMappingRun env = (some e, [])) ∧
    (∀ env : MappingEnv, MappingEvent.submitted ∈ (setMappingRun env).2 →
       env.validate = Except.ok ()) ∧
    (∀ env : MappingEnv, MappingEvent.submitted ∈ (deleteMappingRun env).2 →
       env.validate = Except.ok ()) := by
  refine ⟨?_, ?_, ?_⟩
  · intro env e h1 h2
    constructor
    · simp only [setMappingRun, h1, h2]
    · simp only [deleteMappingRun, h1, h2]
  · intro env hmem
    rcases hc : env.ctx with e | ⟨⟩
    · have hr : setMappingRun env = (some e, []) := by
        simp only [setMappingRun, hc]
      rw [hr] at hmem
      simp at hmem
    rcases hv : env.validate with e | ⟨⟩
    · have hr : setMappingRun env = (some e, [MappingEvent.printedStd env.arg]) := by
        simp only [setMappingRun, hc, hv]
      rw [hr] at hmem
      simp at hmem
    · rfl
  · intro env hmem
    rcases hc : env.ctx with e | ⟨⟩
    · have hr : deleteMappingRun env = (some e, []) := by
        simp only [deleteMappingRun, hc]
      rw [hr] at hmem
      simp at hmem
    rcases hv : env.validate with e | ⟨⟩
    · have hr : deleteMappingRun env = (some e, []) := by
        simp only [deleteMappingRun, hc, hv]
      rw [hr] at hmem
      simp at hmem
    · rfl

/-- Witness for C10: the failing-validation environment returns the
validation error from both commands without submission, and a run of the
passing environment that submitted indeed had a passing validation. -/
theorem c10_validate_first_witness :
    (setMappingRun envMappingBad =
      (some Err.validationError, [MappingEvent.printedStd envMappingBad.arg]) ∧
      deleteMappingRun envMappingBad = (some Err.validationError, [])) ∧
    envMappingGood.validate = Except.ok () :=
  ⟨c10_validate_first.1 envMappingBad Err.validationError rfl rfl,
    c10_validate_first.2.1 envMappingGood (by decide)⟩

end EvmCli
